import Mathlib

/-!
Verification of the one-time report-access-token core of the Cornerstone
backend: the `dbo.ReportAccessTokens` table, the gatekeeper middleware,
and the create / check / finalise token HTTP handlers.

Timestamps are modelled as natural numbers (seconds since an arbitrary
epoch); `SYSUTCDATETIME()` becomes an explicit `now` parameter threaded
into each operation.  The SQL statements operate on a `Store`, a list of
token rows; the conditional `UPDATE ... WHERE` of the finaliser becomes a
map over the store together with the affected-row count, and the
`SELECT COUNT(*)` of the gate becomes a filter length, so the atomicity
of a single SQL statement is reflected by each operation being a single
pure transition on the store.
-/

namespace Cornerstone

/-- A row of `dbo.ReportAccessTokens` (sql/SQLQuery_Key.sql):
`Token NVARCHAR UNIQUE`, optional `UserEmail` / `PaymentId`,
`ExpiresAt`, `Used BIT DEFAULT 0`, `UsedAt NULL`, `CreatedAt`. -/
structure TokenRow where
  token : String
  userEmail : Option String
  paymentId : Option String
  expiresAt : Nat
  used : Bool
  usedAt : Option Nat
  createdAt : Nat
deriving Repr, DecidableEq

/-- The token table: list of rows in insertion order. -/
abbrev Store := List TokenRow

/-- An HTTP response: status code, body text, and the `expiresAt`
field of the JSON body when the handler includes one. -/
structure Resp where
  status : Nat
  body : String
  expiresAtField : Option Nat
deriving Repr, DecidableEq

/-- `string.IsNullOrWhiteSpace` (true on the empty string). -/
def isNullOrWhiteSpace (s : String) : Bool :=
  s.data.all Char.isWhitespace

/-- ASP.NET `PathString.StartsWithSegments`: the path equals the
segment or continues it at a `/` boundary. -/
def startsWithSegments (path seg : String) : Bool :=
  path == seg || List.isPrefixOf (seg.data ++ ['/']) path.data

/-- Allow-list block 1 of the gatekeeper middleware:
`/api/create-token` and `/api/finalise-token` are always allowed. -/
def apiAllowListed (path : String) : Bool :=
  startsWithSegments path "/api/create-token" ||
  startsWithSegments path "/api/finalise-token"

/-- Allow-list block 2 of the gatekeeper middleware: static assets. -/
def staticAllowListed (path : String) : Bool :=
  startsWithSegments path "/js" ||
  startsWithSegments path "/css" ||
  startsWithSegments path "/images" ||
  startsWithSegments path "/lib" ||
  startsWithSegments path "/favicon.ico"

/-- The shared SQL validity predicate
`Token = @Token AND Used = 0 AND ExpiresAt > SYSUTCDATETIME()`
used by both the gate's `SELECT COUNT(*)` and the finaliser's
conditional `UPDATE`. -/
def tokenRowLive (r : TokenRow) (key : String) (now : Nat) : Bool :=
  r.token == key && r.used == false && decide (now < r.expiresAt)

/-- `SELECT COUNT(*) FROM dbo.ReportAccessTokens WHERE <live>`. -/
def countValidRows (s : Store) (key : String) (now : Nat) : Nat :=
  (s.filter (fun r => tokenRowLive r key now)).length

/-- Outcome of the gatekeeper middleware: either the request is passed
down the pipeline (`await next()`), or it is answered directly with a
status code and a plain-text body. -/
inductive GateOutcome where
  | next : GateOutcome
  | deny : Nat → String → GateOutcome
deriving Repr, DecidableEq

/-- The global gatekeeper middleware (ASP.NET `app.Use`): allow the two
token API segments, allow static-asset segments, otherwise require a
non-blank `key` query parameter matching a live token row.  A request
with no `key` parameter reads as the empty string, so a missing key is
modelled as `none` and folded through `Option.getD`. -/
def gatekeeper (s : Store) (path : String) (key : Option String) (now : Nat) :
    GateOutcome :=
  if apiAllowListed path then .next
  else if staticAllowListed path then .next
  else
    let k := key.getD ""
    if isNullOrWhiteSpace k then
      .deny 403 "Access denied. Valid report link required."
    else if 0 < countValidRows s k now then .next
    else .deny 403 "This link is invalid, expired, or already used."

/-- The report base URL that `?key=<token>` is appended to. -/
def REPORT_BASE_URL : String :=
  "https://cornerstoneplus-hqhferewfdhsh4b0.australiaeast-01.azurewebsites.net/BCC.html"

/-- Builds the report URL exactly as the create-token handler does:
append `?key=` or `&key=` depending on whether the base already has a
query string. -/
def reportUrlFor (tok : String) : String :=
  let sep := if REPORT_BASE_URL.contains '?' then "&" else "?"
  REPORT_BASE_URL ++ sep ++ "key=" ++ tok

/-- `POST /api/create-token` (server.js): 400 if `email` or `orderId`
is falsy, 500 if the pool is unavailable, otherwise insert a row with
`ExpiresAt = DATEADD(HOUR, 24, SYSUTCDATETIME())` and respond 200 with
the report URL.  `tok` is the value of `generateToken(32)` for this
request; `poolOk` models whether `getPool()` returned a connection.
Returns the updated store and the response. -/
def createToken (s : Store) (email orderId : Option String) (tok : String)
    (now : Nat) (poolOk : Bool) : Store × Resp :=
  if email.getD "" == "" || orderId.getD "" == "" then
    (s, ⟨400, "Missing email or orderId.", none⟩)
  else if poolOk == false then
    (s, ⟨500, "DB connection failed.", none⟩)
  else
    (s ++ [⟨tok, email, orderId, now + 24 * 3600, false, none, now⟩],
     ⟨200, reportUrlFor tok, none⟩)

/-- The finaliser's single conditional
`UPDATE dbo.ReportAccessTokens SET Used = 1, UsedAt = SYSUTCDATETIME()
WHERE Token = @Token AND Used = 0 AND ExpiresAt > SYSUTCDATETIME()`:
returns the updated store together with the affected-row count. -/
def finaliseUpdate (s : Store) (key : String) (now : Nat) : Store × Nat :=
  (s.map (fun r =>
      if tokenRowLive r key now then
        { r with used := true, usedAt := some now }
      else r),
   countValidRows s key now)

/-- `POST /api/finalise-token?key=...` (server.js): 400 if the key is
falsy, 500 if the pool is unavailable, then run the conditional update;
an affected-row count of zero is answered 400 with the generic
rejection message, otherwise 200. -/
def finaliseToken (s : Store) (key : Option String) (now : Nat)
    (poolOk : Bool) : Store × Resp :=
  match key with
  | none => (s, ⟨400, "Missing key.", none⟩)
  | some k =>
    if k == "" then (s, ⟨400, "Missing key.", none⟩)
    else if poolOk == false then (s, ⟨500, "DB connection failed.", none⟩)
    else
      let upd := finaliseUpdate s k now
      if upd.2 == 0 then
        (upd.1, ⟨400, "This report link is invalid, expired, or already used.", none⟩)
      else (upd.1, ⟨200, "OK", none⟩)

/-- `GET /api/check-token?key=...`: `SELECT TOP 1 Token, ExpiresAt, Used
... WHERE Token = @Token`; 404 when no row, 409 when `Used`, 410 when
`ExpiresAt <= now`, else 200 with `{ok:true, expiresAt}`.  The handler
only selects, so the store is returned unchanged.  (The handler's
guard for an unparseable `ExpiresAt` cannot fire here: timestamps are
naturals.) -/
def checkToken (s : Store) (key : Option String) (now : Nat)
    (poolOk : Bool) : Store × Resp :=
  match key with
  | none => (s, ⟨400, "Missing key.", none⟩)
  | some k =>
    if k == "" then (s, ⟨400, "Missing key.", none⟩)
    else if poolOk == false then (s, ⟨500, "DB connection failed", none⟩)
    else
      match s.find? (fun r => r.token == k) with
      | none => (s, ⟨404, "Invalid token.", none⟩)
      | some row =>
        if row.used then (s, ⟨409, "Token already used.", none⟩)
        else if row.expiresAt ≤ now then (s, ⟨410, "Token expired.", none⟩)
        else (s, ⟨200, "ok", some row.expiresAt⟩)

/-- A serialisation of N finalise attempts on the same key: each
attempt is one atomic conditional update at its own timestamp; returns
the final store and the number of attempts whose affected-row count
was nonzero (i.e. that were answered 200). -/
def runFinalises (s : Store) (key : String) : List Nat → Store × Nat
  | [] => (s, 0)
  | t :: ts =>
    let first := finaliseUpdate s key t
    let rest := runFinalises first.1 key ts
    (rest.1, (if first.2 == 0 then 0 else 1) + rest.2)

/-! ### Helper lemmas -/

theorem tokenRowLive_iff (r : TokenRow) (key : String) (now : Nat) :
    tokenRowLive r key now = true ↔
      r.token = key ∧ r.used = false ∧ now < r.expiresAt := by
  simp [tokenRowLive, and_assoc]

theorem countValidRows_pos_iff (s : Store) (key : String) (now : Nat) :
    0 < countValidRows s key now ↔
      ∃ r ∈ s, r.token = key ∧ r.used = false ∧ now < r.expiresAt := by
  unfold countValidRows
  rw [List.length_pos_iff_exists_mem]
  constructor
  · rintro ⟨r, hr⟩
    rw [List.mem_filter] at hr
    exact ⟨r, hr.1, (tokenRowLive_iff r key now).mp hr.2⟩
  · rintro ⟨r, hm, h⟩
    exact ⟨r, List.mem_filter.mpr ⟨hm, (tokenRowLive_iff r key now).mpr h⟩⟩

theorem countValidRows_eq_zero (s : Store) (key : String) (now : Nat)
    (h : ∀ r ∈ s, tokenRowLive r key now = false) :
    countValidRows s key now = 0 := by
  unfold countValidRows
  rw [List.length_eq_zero, List.filter_eq_nil_iff]
  intro r hr
  simp [h r hr]

theorem map_fixed_of_false {α : Type} (l : List α) (p : α → Bool) (f : α → α)
    (h : ∀ a ∈ l, p a = false) :
    l.map (fun a => if p a then f a else a) = l := by
  induction l with
  | nil => rfl
  | cons a l ih =>
    simp only [List.map_cons, h a (List.mem_cons_self a l)]
    simp only [Bool.false_eq_true, if_false, List.cons.injEq, true_and]
    exact ih (fun b hb => h b (List.mem_cons_of_mem a hb))

theorem finaliseUpdate_id (s : Store) (key : String) (now : Nat)
    (h : ∀ r ∈ s, tokenRowLive r key now = false) :
    finaliseUpdate s key now = (s, 0) := by
  unfold finaliseUpdate
  rw [countValidRows_eq_zero s key now h, map_fixed_of_false s _ _ h]

theorem tokenRowLive_false_of_used (r : TokenRow) (key : String) (now : Nat)
    (h : r.token = key → r.used = true) :
    tokenRowLive r key now = false := by
  by_cases htok : r.token = key
  · simp [tokenRowLive, h htok]
  · simp [tokenRowLive, htok]

theorem tokenRowLive_false_of_expired (r : TokenRow) (key : String) (now : Nat)
    (h : r.token = key → r.expiresAt ≤ now) :
    tokenRowLive r key now = false := by
  by_cases htok : r.token = key
  · simp [tokenRowLive, Nat.not_lt.mpr (h htok)]
  · simp [tokenRowLive, htok]

/-- After a finalise update, every row matching a key whose matching rows
were all live carries `used = true`. -/
theorem finaliseUpdate_all_used (s : Store) (key : String) (now : Nat)
    (h : ∀ r ∈ s, r.token = key → tokenRowLive r key now = true) :
    ∀ r' ∈ (finaliseUpdate s key now).1, r'.token = key → r'.used = true := by
  intro r' hr' htok
  unfold finaliseUpdate at hr'
  simp only [List.mem_map] at hr'
  obtain ⟨r, hr, hfr⟩ := hr'
  by_cases hlive : tokenRowLive r key now
  · rw [if_pos hlive] at hfr
    rw [← hfr]
  · rw [if_neg hlive] at hfr
    subst hfr
    exact absurd (h r hr htok) hlive

/-- A run of finalise attempts on a key all of whose matching rows are
already used leaves the store unchanged and yields zero successes. -/
theorem runFinalises_all_used (key : String) (ts : List Nat) (s : Store)
    (h : ∀ r ∈ s, r.token = key → r.used = true) :
    runFinalises s key ts = (s, 0) := by
  induction ts generalizing s with
  | nil => rfl
  | cons t ts ih =>
    unfold runFinalises
    have hid := finaliseUpdate_id s key t
      (fun r hr => tokenRowLive_false_of_used r key t (h r hr))
    rw [hid]
    simp [ih s h]

/-! ### Claim theorems -/

/-- C2: for a non-allowlisted request with a non-blank `key`, the gate
passes exactly when some stored row matches the key, is unused and
expires strictly after `now`; in every other case it denies with the
invalid-link message. -/
theorem C2_gate_pass_iff_valid (s : Store) (path k : String) (now : Nat)
    (hapi : apiAllowListed path = false)
    (hstatic : staticAllowListed path = false)
    (hk : isNullOrWhiteSpace k = false) :
    (gatekeeper s path (some k) now = .next ↔
      ∃ r ∈ s, r.token = k ∧ r.used = false ∧ now < r.expiresAt) ∧
    (gatekeeper s path (some k) now =
        .deny 403 "This link is invalid, expired, or already used." ↔
      ¬ ∃ r ∈ s, r.token = k ∧ r.used = false ∧ now < r.expiresAt) := by
  unfold gatekeeper
  rw [hapi, hstatic]
  by_cases h : 0 < countValidRows s k now
  · rw [countValidRows_pos_iff] at h
    simp [hk, countValidRows_pos_iff, h]
  · rw [countValidRows_pos_iff] at h
    simp [hk, countValidRows_pos_iff, h]

/-- C2 witness. -/
theorem C2_gate_pass_iff_valid_witness :
    gatekeeper [⟨"tok", some "a@b.com", some "o1", 100, false, none, 5⟩]
        "/BCC.html" (some "tok") 10 = .next :=
  ((C2_gate_pass_iff_valid
      [⟨"tok", some "a@b.com", some "o1", 100, false, none, 5⟩]
      "/BCC.html" "tok" 10 (by decide) (by decide) (by decide)).1).mpr
    ⟨⟨"tok", some "a@b.com", some "o1", 100, false, none, 5⟩,
      by decide, rfl, rfl, by decide⟩

/-- C3: the gate answers every non-allowlisted request lacking a `key`
with a 403 plain-text denial, answers one carrying an invalid key with
a 403 plain-text denial, and passes `/api/create-token` and any
static-asset-prefixed path with no `key` at all. -/
theorem C3_gate_applies_and_allowlist (s : Store) (path p2 k : String)
    (now : Nat)
    (hapi : apiAllowListed path = false)
    (hstatic : staticAllowListed path = false) :
    (gatekeeper s path none now =
      .deny 403 "Access denied. Valid report link required.") ∧
    (isNullOrWhiteSpace k = false →
      (¬ ∃ r ∈ s, r.token = k ∧ r.used = false ∧ now < r.expiresAt) →
      gatekeeper s path (some k) now =
        .deny 403 "This link is invalid, expired, or already used.") ∧
    (gatekeeper s "/api/create-token" none now = .next) ∧
    (staticAllowListed p2 = true → gatekeeper s p2 none now = .next) := by
  refine ⟨?_, ?_, ?_, ?_⟩
  · unfold gatekeeper
    rw [hapi, hstatic]
    have h0 : isNullOrWhiteSpace "" = true := by decide
    simp [h0]
  · intro hk hinvalid
    unfold gatekeeper
    rw [hapi, hstatic]
    rw [← countValidRows_pos_iff] at hinvalid
    simp [hk, Nat.eq_zero_of_not_pos hinvalid]
  · unfold gatekeeper
    simp [apiAllowListed, startsWithSegments]
  · intro hp2
    unfold gatekeeper
    rw [hp2]
    simp

/-- C3 witness. -/
theorem C3_gate_applies_and_allowlist_witness :
    gatekeeper [] "/BCC.html" none 10 =
      .deny 403 "Access denied. Valid report link required." :=
  (C3_gate_applies_and_allowlist [] "/BCC.html" "/js/app.js" "tok" 10
    (by decide) (by decide)).1

/-- C10: `/api/finalise-token` is on the gate's allow-list, so a
request to it with no `key` parameter passes the gate unchecked and is
answered 400 "Missing key." by the endpoint's own handler. -/
theorem C10_finalise_allowlisted (s : Store) (now : Nat) (poolOk : Bool) :
    gatekeeper s "/api/finalise-token" none now = .next ∧
    finaliseToken s none now poolOk = (s, ⟨400, "Missing key.", none⟩) := by
  constructor
  · unfold gatekeeper
    simp [apiAllowListed, startsWithSegments]
  · rfl

/-- C5: a token all of whose matching rows are expired
(`expiresAt ≤ now`) is denied by the gate and rejected by finalise,
with no assumption on the `used` flag. -/
theorem C5_expired_always_rejected (s : Store) (path k : String) (now : Nat)
    (hapi : apiAllowListed path = false)
    (hstatic : staticAllowListed path = false)
    (hk : isNullOrWhiteSpace k = false)
    (hexp : ∀ r ∈ s, r.token = k → r.expiresAt ≤ now) :
    gatekeeper s path (some k) now =
      .deny 403 "This link is invalid, expired, or already used." ∧
    finaliseToken s (some k) now true =
      (s, ⟨400, "This report link is invalid, expired, or already used.", none⟩) := by
  have hdead : ∀ r ∈ s, tokenRowLive r k now = false :=
    fun r hr => tokenRowLive_false_of_expired r k now (hexp r hr)
  have hcount : countValidRows s k now = 0 := countValidRows_eq_zero s k now hdead
  have hkne : (k == "") = false := by
    cases h : k == "" with
    | false => rfl
    | true =>
      have hk0 : k = "" := eq_of_beq h
      subst hk0
      exact absurd hk (by decide)
  constructor
  · unfold gatekeeper
    rw [hapi, hstatic]
    simp [hk, hcount]
  · simp [finaliseToken, hkne, finaliseUpdate_id s k now hdead]

/-- C5 witness. -/
theorem C5_expired_always_rejected_witness :
    gatekeeper [⟨"tok", none, none, 8, true, some 7, 5⟩] "/BCC.html"
        (some "tok") 10 =
      .deny 403 "This link is invalid, expired, or already used." :=
  (C5_expired_always_rejected [⟨"tok", none, none, 8, true, some 7, 5⟩]
    "/BCC.html" "tok" 10 (by decide) (by decide) (by decide)
    (by intro r hr htok; simp at hr; simp [hr])).1

/-- C6: the check-token probe leaves the store unchanged and answers
404 when no row matches the key, 409 when the first matching row is
used, 410 when it is unused but expired, and 200 carrying `expiresAt`
when it is valid. -/
theorem C6_check_token_probe (s : Store) (k : String) (now : Nat)
    (row : TokenRow) (hk : k ≠ "") :
    ((checkToken s (some k) now true).1 = s) ∧
    ((∀ r ∈ s, r.token ≠ k) →
      (checkToken s (some k) now true).2 = ⟨404, "Invalid token.", none⟩) ∧
    (s.find? (fun r => r.token == k) = some row →
      (row.used = true →
        (checkToken s (some k) now true).2 = ⟨409, "Token already used.", none⟩) ∧
      (row.used = false → row.expiresAt ≤ now →
        (checkToken s (some k) now true).2 = ⟨410, "Token expired.", none⟩) ∧
      (row.used = false → now < row.expiresAt →
        (checkToken s (some k) now true).2 = ⟨200, "ok", some row.expiresAt⟩)) := by
  have hkne : (k == "") = false := by
    cases h : k == "" with
    | false => rfl
    | true => exact absurd (eq_of_beq h) hk
  refine ⟨?_, ?_, ?_⟩
  · cases hfind : s.find? (fun r => r.token == k) with
    | none => simp [checkToken, hkne, hfind]
    | some r0 =>
      simp only [checkToken, hfind]
      split_ifs <;> rfl
  · intro hnone
    have hfind : s.find? (fun r => r.token == k) = none := by
      rw [List.find?_eq_none]
      intro r hr
      simp [hnone r hr]
    simp [checkToken, hkne, hfind]
  · intro hfind
    refine ⟨?_, ?_, ?_⟩
    · intro hused
      simp [checkToken, hkne, hfind, hused]
    · intro hused hexp
      simp [checkToken, hkne, hfind, hused, hexp]
    · intro hused hlt
      simp [checkToken, hkne, hfind, hused, Nat.not_le.mpr hlt]

/-- C6 witness. -/
theorem C6_check_token_probe_witness :
    (checkToken [⟨"tok", none, none, 100, false, none, 5⟩] (some "tok")
        10 true).2 = ⟨200, "ok", some 100⟩ :=
  (((C6_check_token_probe [⟨"tok", none, none, 100, false, none, 5⟩]
      "tok" 10 ⟨"tok", none, none, 100, false, none, 5⟩
      (by decide)).2.2 (by decide)).2.2) rfl (by decide)

/-- C9: in check-token the used check runs before the expiry check, so
a used-and-expired token is answered 409, and a 410 answer forces the
matching row to be unused and expired. -/
theorem C9_used_check_precedes_expiry (s : Store) (k : String) (now : Nat)
    (row : TokenRow) (hk : k ≠ "")
    (hfind : s.find? (fun r => r.token == k) = some row) :
    (row.used = true → row.expiresAt ≤ now →
      (checkToken s (some k) now true).2 = ⟨409, "Token already used.", none⟩ ∧
      (checkToken s (some k) now true).2.status ≠ 410) ∧
    ((checkToken s (some k) now true).2.status = 410 →
      row.used = false ∧ row.expiresAt ≤ now) := by
  have hkne : (k == "") = false := by
    cases h : k == "" with
    | false => rfl
    | true => exact absurd (eq_of_beq h) hk
  constructor
  · intro hused _
    constructor
    · simp [checkToken, hkne, hfind, hused]
    · simp [checkToken, hkne, hfind, hused]
  · intro h410
    cases hused : row.used with
    | true =>
      simp [checkToken, hkne, hfind, hused] at h410
    | false =>
      by_cases hexp : row.expiresAt ≤ now
      · exact ⟨rfl, hexp⟩
      · simp [checkToken, hkne, hfind, hused, hexp] at h410

/-- C9 witness. -/
theorem C9_used_check_precedes_expiry_witness :
    (checkToken [⟨"tok", none, none, 8, true, some 7, 5⟩] (some "tok")
        10 true).2 = ⟨409, "Token already used.", none⟩ :=
  ((C9_used_check_precedes_expiry [⟨"tok", none, none, 8, true, some 7, 5⟩]
      "tok" 10 ⟨"tok", none, none, 8, true, some 7, 5⟩
      (by decide) (by decide)).1 rfl (by decide)).1

/-- C8: create-token answers 400 and inserts nothing when `email` or
`orderId` is missing; with both present it inserts exactly one fresh
unused row and answers 200 with the report URL; with both present but
the pool unavailable it answers 500 and inserts nothing. -/
theorem C8_create_token_validation (s : Store) (e o : Option String)
    (tok : String) (now : Nat) :
    ((e.getD "" = "" ∨ o.getD "" = "") →
      createToken s e o tok now true =
        (s, ⟨400, "Missing email or orderId.", none⟩)) ∧
    (e.getD "" ≠ "" → o.getD "" ≠ "" →
      createToken s e o tok now true =
        (s ++ [⟨tok, e, o, now + 24 * 3600, false, none, now⟩],
         ⟨200, reportUrlFor tok, none⟩)) ∧
    (e.getD "" ≠ "" → o.getD "" ≠ "" →
      createToken s e o tok now false =
        (s, ⟨500, "DB connection failed.", none⟩)) := by
  refine ⟨?_, ?_, ?_⟩
  · intro hmiss
    cases hmiss with
    | inl he => simp [createToken, he]
    | inr ho => simp [createToken, ho]
  · intro he ho
    simp [createToken, he, ho]
  · intro he ho
    simp [createToken, he, ho]

/-- C8 witness. -/
theorem C8_create_token_validation_witness :
    createToken [] (some "a@b.com") none "tok" 0 true =
      ([], ⟨400, "Missing email or orderId.", none⟩) :=
  (C8_create_token_validation [] (some "a@b.com") none "tok" 0).1
    (Or.inr rfl)

/-- C1: for a key all of whose stored rows are unused and unexpired at
every attempt time, any serialisation of N ≥ 1 finalise attempts (each
a single atomic conditional update) yields exactly one success; and a
finalise request is answered with the 400 rejection exactly when the
conditional update's affected-row count is zero. -/
theorem C1_exactly_one_finalise_success (s : Store) (k : String)
    (ts : List Nat) (hne : ts ≠ [])
    (hvalid : ∀ r ∈ s, r.token = k → r.used = false ∧ ∀ t ∈ ts, t < r.expiresAt)
    (hexists : ∃ r ∈ s, r.token = k) :
    (runFinalises s k ts).2 = 1 ∧
    (∀ (s2 : Store) (now : Nat), k ≠ "" →
      ((finaliseToken s2 (some k) now true).2 =
          ⟨400, "This report link is invalid, expired, or already used.", none⟩ ↔
        (finaliseUpdate s2 k now).2 = 0)) := by
  constructor
  · obtain ⟨t, ts', rfl⟩ : ∃ t ts', ts = t :: ts' := by
      cases ts with
      | nil => exact absurd rfl hne
      | cons t ts' => exact ⟨t, ts', rfl⟩
    have hlive : ∀ r ∈ s, r.token = k → tokenRowLive r k t = true := by
      intro r hr htok
      obtain ⟨hused, hexp⟩ := hvalid r hr htok
      exact (tokenRowLive_iff r k t).mpr
        ⟨htok, hused, hexp t (List.mem_cons_self t ts')⟩
    have hpos : 0 < countValidRows s k t := by
      rw [countValidRows_pos_iff]
      obtain ⟨r, hr, htok⟩ := hexists
      obtain ⟨hused, hexp⟩ := hvalid r hr htok
      exact ⟨r, hr, htok, hused, hexp t (List.mem_cons_self t ts')⟩
    have hrest : runFinalises (finaliseUpdate s k t).1 k ts' =
        ((finaliseUpdate s k t).1, 0) :=
      runFinalises_all_used k ts' (finaliseUpdate s k t).1
        (finaliseUpdate_all_used s k t hlive)
    have hcons : runFinalises s k (t :: ts') =
        ((runFinalises (finaliseUpdate s k t).1 k ts').1,
         (if ((finaliseUpdate s k t).2 == 0) = true then 0 else 1) +
           (runFinalises (finaliseUpdate s k t).1 k ts').2) := rfl
    have hcount : ((finaliseUpdate s k t).2 == 0) = false := by
      unfold finaliseUpdate
      simp [Nat.pos_iff_ne_zero.mp hpos]
    rw [hcons, hrest, hcount]
    simp
  · intro s2 now hk
    have hkne : (k == "") = false := by
      cases h : k == "" with
      | false => rfl
      | true => exact absurd (eq_of_beq h) hk
    cases hn : (finaliseUpdate s2 k now).2 with
    | zero => simp [finaliseToken, hkne, hn]
    | succ m => simp [finaliseToken, hkne, hn]

/-- C1 witness. -/
theorem C1_exactly_one_finalise_success_witness :
    (runFinalises [⟨"tok", none, none, 100, false, none, 5⟩] "tok"
        [10, 11, 12]).2 = 1 :=
  (C1_exactly_one_finalise_success [⟨"tok", none, none, 100, false, none, 5⟩]
    "tok" [10, 11, 12] (by decide) (by decide)
    ⟨⟨"tok", none, none, 100, false, none, 5⟩, by decide, rfl⟩).1

/-- C4: round trip — issuing a token (24h TTL) yields 200 with the
report URL; a gate check with the returned token passes; the first
finalise within the TTL succeeds; after it, a gate check on the same
token is denied as invalid and a second finalise is rejected. -/
theorem C4_round_trip (s : Store) (path e o tok : String)
    (t0 t1 t2 t3 t4 : Nat)
    (hapi : apiAllowListed path = false)
    (hstatic : staticAllowListed path = false)
    (hws : isNullOrWhiteSpace tok = false)
    (he : e ≠ "") (ho : o ≠ "")
    (hfresh : ∀ r ∈ s, r.token ≠ tok)
    (h1 : t1 < t0 + 24 * 3600) (h2 : t2 < t0 + 24 * 3600) :
    (createToken s (some e) (some o) tok t0 true).2 =
      ⟨200, reportUrlFor tok, none⟩ ∧
    gatekeeper (createToken s (some e) (some o) tok t0 true).1 path
      (some tok) t1 = .next ∧
    (finaliseToken (createToken s (some e) (some o) tok t0 true).1
      (some tok) t2 true).2 = ⟨200, "OK", none⟩ ∧
    gatekeeper (finaliseToken (createToken s (some e) (some o) tok t0 true).1
      (some tok) t2 true).1 path (some tok) t3 =
      .deny 403 "This link is invalid, expired, or already used." ∧
    (finaliseToken (finaliseToken (createToken s (some e) (some o) tok t0
      true).1 (some tok) t2 true).1 (some tok) t4 true).2 =
      ⟨400, "This report link is invalid, expired, or already used.", none⟩ := by
  have htokne : (tok == "") = false := by
    cases h : tok == "" with
    | false => rfl
    | true =>
      have h0 : tok = "" := eq_of_beq h
      subst h0
      exact absurd hws (by decide)
  have hcreate : createToken s (some e) (some o) tok t0 true =
      (s ++ [⟨tok, some e, some o, t0 + 24 * 3600, false, none, t0⟩],
       ⟨200, reportUrlFor tok, none⟩) := by
    simp [createToken, he, ho]
  have hmem : (⟨tok, some e, some o, t0 + 24 * 3600, false, none, t0⟩ :
      TokenRow) ∈ s ++ [⟨tok, some e, some o, t0 + 24 * 3600, false, none, t0⟩] := by
    simp
  have hgate1 : gatekeeper
      (s ++ [⟨tok, some e, some o, t0 + 24 * 3600, false, none, t0⟩]) path
      (some tok) t1 = .next := by
    unfold gatekeeper
    rw [hapi, hstatic]
    have hpos : 0 < countValidRows
        (s ++ [⟨tok, some e, some o, t0 + 24 * 3600, false, none, t0⟩]) tok t1 :=
      (countValidRows_pos_iff _ tok t1).mpr ⟨_, hmem, rfl, rfl, h1⟩
    simp [hws, hpos]
  have hlive2 : ∀ r ∈ s ++ [⟨tok, some e, some o, t0 + 24 * 3600, false,
      none, t0⟩], r.token = tok → tokenRowLive r tok t2 = true := by
    intro r hr htok
    rcases List.mem_append.mp hr with hin | hin
    · exact absurd htok (hfresh r hin)
    · rcases List.mem_singleton.mp hin with rfl
      exact (tokenRowLive_iff _ tok t2).mpr ⟨rfl, rfl, h2⟩
  have hpos2 : 0 < countValidRows
      (s ++ [⟨tok, some e, some o, t0 + 24 * 3600, false, none, t0⟩]) tok t2 :=
    (countValidRows_pos_iff _ tok t2).mpr ⟨_, hmem, rfl, rfl, h2⟩
  have hc2 : ((finaliseUpdate
      (s ++ [⟨tok, some e, some o, t0 + 24 * 3600, false, none, t0⟩])
      tok t2).2 == 0) = false := by
    unfold finaliseUpdate
    simp [Nat.pos_iff_ne_zero.mp hpos2]
  have hfin : finaliseToken
      (s ++ [⟨tok, some e, some o, t0 + 24 * 3600, false, none, t0⟩])
      (some tok) t2 true =
      ((finaliseUpdate
        (s ++ [⟨tok, some e, some o, t0 + 24 * 3600, false, none, t0⟩])
        tok t2).1, ⟨200, "OK", none⟩) := by
    simp [finaliseToken, htokne, hc2]
  have hused3 : ∀ r ∈ (finaliseUpdate
      (s ++ [⟨tok, some e, some o, t0 + 24 * 3600, false, none, t0⟩])
      tok t2).1, r.token = tok → r.used = true :=
    finaliseUpdate_all_used _ tok t2 hlive2
  have hdead3 : ∀ t : Nat, ∀ r ∈ (finaliseUpdate
      (s ++ [⟨tok, some e, some o, t0 + 24 * 3600, false, none, t0⟩])
      tok t2).1, tokenRowLive r tok t = false :=
    fun t r hr => tokenRowLive_false_of_used r tok t (hused3 r hr)
  have hgate3 : gatekeeper (finaliseUpdate
      (s ++ [⟨tok, some e, some o, t0 + 24 * 3600, false, none, t0⟩])
      tok t2).1 path (some tok) t3 =
      .deny 403 "This link is invalid, expired, or already used." := by
    unfold gatekeeper
    rw [hapi, hstatic]
    simp [hws, countValidRows_eq_zero _ tok t3 (hdead3 t3)]
  have hfin4 : finaliseToken (finaliseUpdate
      (s ++ [⟨tok, some e, some o, t0 + 24 * 3600, false, none, t0⟩])
      tok t2).1 (some tok) t4 true =
      ((finaliseUpdate
        (s ++ [⟨tok, some e, some o, t0 + 24 * 3600, false, none, t0⟩])
        tok t2).1,
       ⟨400, "This report link is invalid, expired, or already used.", none⟩) := by
    simp [finaliseToken, htokne, finaliseUpdate_id _ tok t4 (hdead3 t4)]
  refine ⟨?_, ?_, ?_, ?_, ?_⟩
  · rw [hcreate]
  · simp only [hcreate]
    exact hgate1
  · simp only [hcreate, hfin]
  · simp only [hcreate, hfin]
    exact hgate3
  · simp only [hcreate, hfin]
    rw [hfin4]

/-- C4 witness. -/
theorem C4_round_trip_witness :
    (finaliseToken (finaliseToken (createToken [] (some "a@b.com")
      (some "o1") "tok" 0 true).1 (some "tok") 10 true).1 (some "tok")
      20 true).2 =
      ⟨400, "This report link is invalid, expired, or already used.", none⟩ :=
  (C4_round_trip [] "/BCC.html" "a@b.com" "o1" "tok" 0 5 10 15 20
    (by decide) (by decide) (by decide) (by decide) (by decide)
    (by intro r hr; simp at hr) (by decide) (by decide)).2.2.2.2

/-! ### Reachable-state model for the store invariant -/

/-- The operations that touch `dbo.ReportAccessTokens`: the insert of
the create-token handler, the conditional update of the finalise
handler, and the read-only check probe. -/
inductive Op where
  | create (email orderId tok : String) : Op
  | finalise (key : String) : Op
  | check (key : String) : Op
deriving Repr, DecidableEq

/-- One handler invocation against the store at wall-clock time `now`
(with a live pool). -/
def stepAt (s : Store) (op : Op) (now : Nat) : Store :=
  match op with
  | .create e o tok => (createToken s (some e) (some o) tok now true).1
  | .finalise k => (finaliseToken s (some k) now true).1
  | .check k => (checkToken s (some k) now true).1

/-- Replays a list of timestamped operations from a starting store. -/
def runTrace (s : Store) : List (Op × Nat) → Store
  | [] => s
  | (op, t) :: rest => runTrace (stepAt s op t) rest

/-- Row invariant at time `now`: the row was created no later than
`now`; a used row has a `usedAt` no earlier than its `createdAt`; an
unused row has no `usedAt`. -/
def rowInv (r : TokenRow) (now : Nat) : Prop :=
  r.createdAt ≤ now ∧
  (r.used = true → ∃ u, r.usedAt = some u ∧ r.createdAt ≤ u) ∧
  (r.used = false → r.usedAt = none)

/-- Store invariant: every row satisfies `rowInv`. -/
def storeInv (s : Store) (now : Nat) : Prop :=
  ∀ r ∈ s, rowInv r now

theorem storeInv_mono (s : Store) (t u : Nat) (h : t ≤ u)
    (hs : storeInv s t) : storeInv s u :=
  fun r hr => ⟨le_trans (hs r hr).1 h, (hs r hr).2.1, (hs r hr).2.2⟩

theorem createToken_inv (s : Store) (e o : Option String) (tok : String)
    (t : Nat) (p : Bool) (hs : storeInv s t) :
    storeInv (createToken s e o tok t p).1 t := by
  unfold createToken
  split_ifs
  · exact hs
  · exact hs
  · intro r hr
    rcases List.mem_append.mp hr with h | h
    · exact hs r h
    · rcases List.mem_singleton.mp h with rfl
      exact ⟨le_refl t, by simp, by simp⟩

theorem finaliseUpdate_inv (s : Store) (k : String) (t : Nat)
    (hs : storeInv s t) : storeInv (finaliseUpdate s k t).1 t := by
  intro r2 hr2
  unfold finaliseUpdate at hr2
  simp only [List.mem_map] at hr2
  obtain ⟨r, hr, hfr⟩ := hr2
  obtain ⟨hc, hu, hn⟩ := hs r hr
  by_cases hlive : tokenRowLive r k t
  · rw [if_pos hlive] at hfr
    subst hfr
    exact ⟨hc, fun _ => ⟨t, rfl, hc⟩, fun hcontra => nomatch hcontra⟩
  · rw [if_neg hlive] at hfr
    subst hfr
    exact ⟨hc, hu, hn⟩

theorem finaliseToken_inv (s : Store) (key : Option String) (t : Nat)
    (p : Bool) (hs : storeInv s t) :
    storeInv (finaliseToken s key t p).1 t := by
  cases key with
  | none => exact hs
  | some k =>
    simp only [finaliseToken]
    split_ifs
    · exact hs
    · exact hs
    · exact finaliseUpdate_inv s k t hs
    · exact finaliseUpdate_inv s k t hs

theorem checkToken_state (s : Store) (key : Option String) (t : Nat)
    (p : Bool) : (checkToken s key t p).1 = s := by
  unfold checkToken
  cases key with
  | none => rfl
  | some k =>
    cases hfind : s.find? (fun r => r.token == k) with
    | none =>
      simp only [hfind]
      split_ifs <;> rfl
    | some row =>
      simp only [hfind]
      split_ifs <;> rfl

theorem stepAt_inv (s : Store) (op : Op) (t : Nat) (hs : storeInv s t) :
    storeInv (stepAt s op t) t := by
  cases op with
  | create e o tok => exact createToken_inv s (some e) (some o) tok t true hs
  | finalise k => exact finaliseToken_inv s (some k) t true hs
  | check k =>
    show storeInv (checkToken s (some k) t true).1 t
    rw [checkToken_state]
    exact hs

theorem runTrace_inv (ops : List (Op × Nat)) :
    ∀ (s : Store) (t : Nat), storeInv s t →
      (∀ q ∈ ops.head?, t ≤ q.2) →
      List.Chain' (fun a b : Op × Nat => a.2 ≤ b.2) ops →
      ∃ u, storeInv (runTrace s ops) u := by
  induction ops with
  | nil =>
    intro s t hs _ _
    exact ⟨t, hs⟩
  | cons q rest ih =>
    intro s t hs hhead hchain
    obtain ⟨op, u⟩ := q
    have htu : t ≤ u := hhead (op, u) rfl
    rw [List.chain'_cons'] at hchain
    exact ih (stepAt s op u) u
      (stepAt_inv s op u (storeInv_mono s t u htu hs))
      (fun q2 hq2 => hchain.1 q2 hq2) hchain.2

/-- A used row survives the finalise update at its position with every
field unchanged. -/
theorem finaliseUpdate_get_used (s : Store) (k : String) (t i : Nat)
    (h : i < s.length) (hu : (s.get ⟨i, h⟩).used = true) :
    ∃ h2 : i < (finaliseUpdate s k t).1.length,
      (finaliseUpdate s k t).1.get ⟨i, h2⟩ = s.get ⟨i, h⟩ := by
  have hlen : (finaliseUpdate s k t).1.length = s.length := by
    unfold finaliseUpdate
    simp
  refine ⟨by rw [hlen]; exact h, ?_⟩
  simp only [List.get_eq_getElem] at hu ⊢
  have hfalse : tokenRowLive s[i] k t = false :=
    tokenRowLive_false_of_used _ k t (fun _ => hu)
  unfold finaliseUpdate
  simp [List.getElem_map, hfalse]

/-- C7: over every trace of handler invocations with nondecreasing
timestamps starting from an empty table, a used row has a `usedAt` no
earlier than its `createdAt` and an unused row has `usedAt = null`;
moreover no single handler invocation mutates any field of a row whose
`used` flag is already true. -/
theorem C7_used_terminal_invariant :
    (∀ ops : List (Op × Nat),
      List.Chain' (fun a b : Op × Nat => a.2 ≤ b.2) ops →
      ∀ r ∈ runTrace [] ops,
        (r.used = true → ∃ u, r.usedAt = some u ∧ r.createdAt ≤ u) ∧
        (r.used = false → r.usedAt = none)) ∧
    (∀ (s : Store) (op : Op) (t i : Nat) (h : i < s.length),
      (s.get ⟨i, h⟩).used = true →
      ∃ h2 : i < (stepAt s op t).length,
        (stepAt s op t).get ⟨i, h2⟩ = s.get ⟨i, h⟩) := by
  constructor
  · intro ops hchain r hr
    obtain ⟨u, hinv⟩ := runTrace_inv ops [] 0
      (fun r2 hr2 => nomatch hr2) (fun q _ => Nat.zero_le q.2) hchain
    exact ⟨(hinv r hr).2.1, (hinv r hr).2.2⟩
  · intro s op t i h hu
    cases op with
    | create e o tok =>
      show ∃ h2 : i < (createToken s (some e) (some o) tok t true).1.length,
        (createToken s (some e) (some o) tok t true).1.get ⟨i, h2⟩ = s.get ⟨i, h⟩
      by_cases hcond : e = "" ∨ o = ""
      · have heq : (createToken s (some e) (some o) tok t true).1 = s := by
          simp [createToken, hcond]
        rw [heq]
        exact ⟨h, rfl⟩
      · have heq : (createToken s (some e) (some o) tok t true).1 =
            s ++ [⟨tok, some e, some o, t + 24 * 3600, false, none, t⟩] := by
          simp [createToken, hcond]
        rw [heq]
        refine ⟨by simp only [List.length_append, List.length_singleton]; omega, ?_⟩
        simp only [List.get_eq_getElem]
        exact List.getElem_append_left h
    | finalise k =>
      show ∃ h2 : i < (finaliseToken s (some k) t true).1.length,
        (finaliseToken s (some k) t true).1.get ⟨i, h2⟩ = s.get ⟨i, h⟩
      cases hck : (k == "") with
      | true =>
        have heq : (finaliseToken s (some k) t true).1 = s := by
          simp [finaliseToken, hck]
        rw [heq]
        exact ⟨h, rfl⟩
      | false =>
        have heq : (finaliseToken s (some k) t true).1 =
            (finaliseUpdate s k t).1 := by
          cases hn : ((finaliseUpdate s k t).2 == 0) with
          | true => simp [finaliseToken, hck, hn]
          | false => simp [finaliseToken, hck, hn]
        rw [heq]
        exact finaliseUpdate_get_used s k t i h hu
    | check k =>
      show ∃ h2 : i < (checkToken s (some k) t true).1.length,
        (checkToken s (some k) t true).1.get ⟨i, h2⟩ = s.get ⟨i, h⟩
      rw [checkToken_state]
      exact ⟨h, rfl⟩

/-- C7 witness: a concrete two-step trace (create then finalise) whose
resulting row is used, has `usedAt = 10` and `createdAt = 5`. -/
theorem C7_used_terminal_invariant_witness :
    ∃ u, (⟨"tok", some "a@b.com", some "o1", 86405, true, some 10, 5⟩ :
        TokenRow).usedAt = some u ∧
      (⟨"tok", some "a@b.com", some "o1", 86405, true, some 10, 5⟩ :
        TokenRow).createdAt ≤ u :=
  (C7_used_terminal_invariant.1
    [(.create "a@b.com" "o1" "tok", 5), (.finalise "tok", 10)]
    (List.chain'_pair.mpr (by decide))
    ⟨"tok", some "a@b.com", some "o1", 86405, true, some 10, 5⟩
    (by decide)).1 rfl

end Cornerstone
